import Mathlib

/-!
Verification of the match-scoring engine of the AI-Job-Screening-Agent
repository (`agents/matching_agent.py`, `agents/shortlisting_agent.py`).

Python values are modelled as follows: `float` arithmetic is modelled as
exact rational arithmetic over `ℚ`; Python `set[str]` as `Finset String`;
Python `None` as `Option.none`; strings are manipulated through their
character lists (`String.data`) so that all operations are
kernel-executable.
-/

set_option autoImplicit false

namespace JobScreening

/-! ### Character/string helpers (Python `str.lower`, `in`, `len`, `join`) -/

/-- Lower-case every character of a string (Python `str.lower()` restricted
to ASCII, which is all the code's keyword tables use). -/
def strLower (s : String) : String := ⟨s.data.map Char.toLower⟩

/-- `listIsPref needle hay` : `needle` is a prefix of `hay` (character lists). -/
def listIsPref : List Char → List Char → Bool
  | [], _ => true
  | _ :: _, [] => false
  | n :: ns, h :: hs => n == h && listIsPref ns hs

/-- Python substring test `needle in hay` on character lists. -/
def listContains (hay needle : List Char) : Bool :=
  (List.range (hay.length + 1)).any (fun i => listIsPref needle (hay.drop i))

/-- Python substring test `needle in hay` for strings. -/
def strContains (hay needle : String) : Bool :=
  listContains hay.data needle.data

/-- Python `" ".join(xs)`. -/
def joinSpace (xs : List String) : String :=
  ⟨((xs.map String.data).intersperse [' ']).flatten⟩

/-! ### The static synonym table (`SKILL_SYNONYMS` in `matching_agent.py`) -/

def SKILL_SYNONYMS : List (String × List String) :=
  [ ("databases", ["sql", "mysql", "postgresql", "nosql", "database management", "database"]),
    ("web development", ["html", "css", "javascript", "react", "angular", "vue", "node.js",
                         "django", "flask", "spring boot", "web dev", "frontend", "backend"]),
    ("cloud", ["aws", "azure", "gcp", "google cloud", "amazon web services", "cloud computing"]),
    ("machine learning", ["ml", "deep learning", "tensorflow", "pytorch", "scikit-learn", "ai"]),
    ("artificial intelligence", ["ai", "ml", "deep learning", "nlp", "computer vision"]),
    ("cybersecurity", ["security", "network security", "penetration testing", "pen testing",
                       "risk assessment", "vulnerability assessment", "infosec"]),
    ("python", ["python3"]),
    ("java", ["java se", "java ee"]) ]

/-! ### `expand_skills` -/

/-- The synonym members contributed by one skill: the union of the value
lists of the table entries whose key equals the skill
(Python `if skill in synonyms: expanded.update(synonyms[skill])`). -/
def directSyns (skill : String) (synonyms : List (String × List String)) : Finset String :=
  synonyms.foldr (fun kv acc => if kv.1 = skill then kv.2.toFinset ∪ acc else acc) ∅

/-- The category keys contributed by one skill: the keys of the table
entries whose value list contains the skill
(Python `for key, value_list in synonyms.items(): if skill in value_list: expanded.add(key)`). -/
def categoryKeys (skill : String) (synonyms : List (String × List String)) : Finset String :=
  synonyms.foldr (fun kv acc => if skill ∈ kv.2 then insert kv.1 acc else acc) ∅

/-- `expand_skills` from `matching_agent.py`: returns `∅` for an empty
input, otherwise the input set augmented, for each contained skill, with
its direct synonym members and its containing category keys. -/
def expand_skills (skill_set : Finset String) (synonyms : List (String × List String)) :
    Finset String :=
  if skill_set = ∅ then ∅
  else skill_set ∪ skill_set.biUnion (fun s => directSyns s synonyms ∪ categoryKeys s synonyms)

/-! ### Data model

Cleaned JD-summary and CV-extraction dictionaries, as consumed by the
component scorers of `matching_agent.py` (fields read via `dict.get` with
the defaults the code uses). -/

structure JdData where
  required_skills : Finset String
  preferred_skills : Finset String
  domain_expertise : Finset String
  soft_skills : Finset String
  required_experience_years : Option String
  required_education : Option String
  essential_requirements : Finset String
  deriving DecidableEq

structure CvData where
  skills : Finset String
  domain_expertise : Finset String
  soft_skills : Finset String
  certifications : Finset String
  education : List String
  total_experience_years : Option ℚ
  deriving DecidableEq

/-! ### `parse_experience_years` -/

/-- Value of a list of decimal digit characters. -/
def digitsToNat (ds : List Char) : Nat :=
  ds.foldl (fun n c => 10 * n + (c.toNat - 48)) 0

/-- The first (leftmost, greedy) token matched by the regex
`\d+\.?\d*` in a character list, as `re.findall(...)[0]` computes it. -/
def firstNumberToken : List Char → Option (List Char)
  | [] => none
  | c :: cs =>
    if c.isDigit then
      let ip := (c :: cs).takeWhile Char.isDigit
      let rest := (c :: cs).dropWhile Char.isDigit
      some (match rest with
            | '.' :: cs2 => ip ++ '.' :: cs2.takeWhile Char.isDigit
            | _ => ip)
    else firstNumberToken cs

/-- Python `float(token)` for a token matched by `\d+\.?\d*`
(never raises for such tokens), with floats modelled as rationals. -/
def floatOfToken (tok : List Char) : ℚ :=
  let ip := tok.takeWhile Char.isDigit
  let fp := match tok.dropWhile Char.isDigit with
            | '.' :: cs => cs
            | _ => []
  (digitsToNat ip : ℚ) + (digitsToNat fp : ℚ) / (10 ^ fp.length)

/-- `parse_experience_years` from `matching_agent.py`: `None` for a
null/empty/non-string input or when no numeric token occurs, otherwise
the float value of the first numeric token. -/
def parse_experience_years (exp_string : Option String) : Option ℚ :=
  match exp_string with
  | none => none
  | some s => if s = "" then none else (firstNumberToken s.data).map floatOfToken

/-! ### `calculate_skill_match` -/

/-- `calculate_skill_match` from `matching_agent.py`.  Each sub-ratio
divides the intersection of the synonym-expanded JD set with the
candidate terms by the RAW JD set's size, and is computed only when the
raw set is non-empty (else the neutral/bonus fallback).  Present
categories are renormalized by the sub-weights actually used. -/
def calculate_skill_match (jd : JdData) (cv : CvData) : ℚ :=
  let jd_req_raw := jd.required_skills
  let jd_pref_raw := jd.preferred_skills
  let jd_dom_raw := jd.domain_expertise
  let jd_soft_raw := jd.soft_skills
  let jd_req := expand_skills jd_req_raw SKILL_SYNONYMS
  let jd_pref := expand_skills jd_pref_raw SKILL_SYNONYMS
  let jd_dom := expand_skills jd_dom_raw SKILL_SYNONYMS
  let jd_soft := jd_soft_raw
  let all_cv := cv.skills ∪ cv.domain_expertise ∪ cv.soft_skills
  let required_match : ℚ :=
    if jd_req_raw ≠ ∅ then ((jd_req ∩ all_cv).card : ℚ) / (jd_req_raw.card : ℚ) else (5/10 : ℚ)
  let preferred_match : ℚ :=
    if jd_pref_raw ≠ ∅ then ((jd_pref ∩ all_cv).card : ℚ) / (jd_pref_raw.card : ℚ) else 0
  let domain_match : ℚ :=
    if jd_dom_raw ≠ ∅ then ((jd_dom ∩ cv.domain_expertise).card : ℚ) / (jd_dom_raw.card : ℚ)
    else (5/10 : ℚ)
  let soft_match : ℚ :=
    if jd_soft_raw ≠ ∅ then ((jd_soft ∩ cv.soft_skills).card : ℚ) / (jd_soft_raw.card : ℚ)
    else (5/10 : ℚ)
  let weighted_score : ℚ :=
    (if jd_req_raw ≠ ∅ then required_match * (60/100 : ℚ) else 0) +
    (if jd_pref_raw ≠ ∅ then preferred_match * (10/100 : ℚ) else 0) +
    (if jd_dom_raw ≠ ∅ then domain_match * (15/100 : ℚ) else 0) +
    (if jd_soft_raw ≠ ∅ then soft_match * (15/100 : ℚ) else 0)
  let total_weight : ℚ :=
    (if jd_req_raw ≠ ∅ then ((60/100 : ℚ) : ℚ) else 0) +
    (if jd_pref_raw ≠ ∅ then ((10/100 : ℚ) : ℚ) else 0) +
    (if jd_dom_raw ≠ ∅ then ((15/100 : ℚ) : ℚ) else 0) +
    (if jd_soft_raw ≠ ∅ then ((15/100 : ℚ) : ℚ) else 0)
  if total_weight = 0 then (5/10 : ℚ) else weighted_score / total_weight

/-! ### `check_essential_requirements` -/

/-- One requirement counts as met: its lower-casing equals a member of
`skills ∪ certifications` or occurs as a substring of the space-joined
lower-cased education phrases. -/
def reqIsMet (cv : CvData) (req : String) : Prop :=
  strLower req ∈ cv.skills ∪ cv.certifications ∨
    strContains (joinSpace (cv.education.map strLower)) (strLower req) = true

instance (cv : CvData) : DecidablePred (reqIsMet cv) := fun req => by
  unfold reqIsMet; infer_instance

/-- `check_essential_requirements` from `matching_agent.py`: `1.0` when
the JD lists no essential requirements, otherwise the fraction met. -/
def check_essential_requirements (jd : JdData) (cv : CvData) : ℚ :=
  let essential_reqs := jd.essential_requirements
  if essential_reqs = ∅ then 1
  else ((essential_reqs.filter (reqIsMet cv)).card : ℚ) / (essential_reqs.card : ℚ)

/-! ### `calculate_education_match` -/

/-- The degree hierarchy table of `calculate_education_match`
(keyword substring → integer level). -/
def degree_hierarchy : List (String × Nat) :=
  [ ("phd", 4), ("doctorate", 4),
    ("master", 3), ("mba", 3), ("msc", 3), ("meng", 3), ("m.sc", 3), ("m.eng", 3),
    ("bachelor", 2), ("undergraduate", 2), ("bs", 2), ("ba", 2), ("beng", 2),
    ("b.s", 2), ("b.a", 2), ("b.eng", 2),
    ("associate", 1), ("diploma", 1), ("certificate", 1) ]

/-- JD required level: maximum level whose keyword occurs as a substring
of the lower-cased JD string (`jd_level = max(jd_level, level)` loop). -/
def jdLevelOf (jd_edu_lower : String) : Nat :=
  degree_hierarchy.foldl
    (fun lv dk => if strContains jd_edu_lower dk.1 then max lv dk.2 else lv) 0

/-- Candidate level: maximum level found scanning every CV phrase
(`if level > cv_level: cv_level = level` loop). -/
def cvLevelOf (cv_education_list : List String) : Nat :=
  cv_education_list.foldl
    (fun lv e =>
      degree_hierarchy.foldl
        (fun lv2 dk => if strContains (strLower e) dk.1 = true ∧ dk.2 > lv2 then dk.2 else lv2)
        lv)
    0

/-- The literal strings that make the JD education requirement count as
unspecified. -/
def NONE_LITERALS : List String := ["none", "none specified", "n/a"]

/-- `calculate_education_match` from `matching_agent.py`.  A missing/empty
or literal-"none" JD string is neutral ((5/10 : ℚ)); an empty or non-list CV
education gives 0.0 (this check comes BEFORE the degree-level analysis);
a JD string with no recognized keyword is neutral ((5/10 : ℚ)); otherwise 1.0
iff the best CV level meets the JD level, else 0.0.  A non-list Python
value for `cv_education_list` is modelled as `none`. -/
def calculate_education_match (jd_education_str : Option String)
    (cv_education_list : Option (List String)) : ℚ :=
  match jd_education_str with
  | none => (5/10 : ℚ)
  | some s =>
    if s = "" ∨ strLower s ∈ NONE_LITERALS then (5/10 : ℚ)
    else
      match cv_education_list with
      | none => 0
      | some l =>
        if l = [] then 0
        else
          let jd_edu_lower := strLower s
          let jd_level := jdLevelOf jd_edu_lower
          if jd_level = 0 ∧ jd_edu_lower.data.length > 3 then (5/10 : ℚ)
          else if jd_level = 0 then (5/10 : ℚ)
          else if cvLevelOf l ≥ jd_level then 1 else 0

/-! ### `calculate_experience_match` -/

/-- `calculate_experience_match` from `matching_agent.py`.  A non-numeric
Python value for `cv_total_exp_years` is modelled as `none`. -/
def calculate_experience_match (jd_exp_years_str : Option String)
    (cv_total_exp_years : Option ℚ) : ℚ :=
  match parse_experience_years jd_exp_years_str with
  | none =>
    match cv_total_exp_years with
    | some c => if c > 0 then (5/10 : ℚ) else 0
    | none => 0
  | some jd_min_years =>
    match cv_total_exp_years with
    | none => 0
    | some c =>
      if c < 0 then 0
      else if c ≥ jd_min_years then
        let bonus := min (2/10 : ℚ) ((c - jd_min_years) * (5/100 : ℚ))
        min 1 (1 + bonus)
      else max 0 (c / jd_min_years)

/-! ### Overall score aggregation (step 4–5 of `calculate_match_score`) -/

structure Weights where
  skills : ℚ
  experience : ℚ
  education : ℚ
  requirements : ℚ
  deriving DecidableEq

/-- The default weights of `matching_agent.py`. -/
def DEFAULT_WEIGHTS : Weights := ⟨4/10, 25/100, 25/100, 1/10⟩

/-- Steps 4–5 of `calculate_match_score`: the four component scores,
weighted, then clamped to `[0,1]`. -/
def compute_overall (jd : JdData) (cv : CvData) (w : Weights) : ℚ :=
  let skill_score := calculate_skill_match jd cv
  let experience_score :=
    calculate_experience_match jd.required_experience_years cv.total_experience_years
  let education_score := calculate_education_match jd.required_education (some cv.education)
  let requirements_score := check_essential_requirements jd cv
  max 0 (min 1 (skill_score * w.skills + experience_score * w.experience +
                education_score * w.education + requirements_score * w.requirements))

/-! ### JSON values and the full `calculate_match_score` wrapper

The payload columns hold JSON text decoded by the Python standard
library's `json.loads`; the decoder itself is outside the repository, so
it is abstracted as a `loads : String → Option Json` argument (`none`
models a `JSONDecodeError`, which `safe_json_loads` catches). -/

inductive Json where
  | obj : List (String × Json) → Json
  | arr : List Json → Json
  | str : String → Json
  | num : ℚ → Json
  | jbool : Bool → Json
  | null : Json

/-- `safe_json_loads` from `matching_agent.py`: `None` for a null/empty
input string, the decode result (or `None` on decode error) otherwise. -/
def safe_json_loads (loads : String → Option Json) : Option String → Option Json
  | none => none
  | some s => if s = "" then none else loads s

/-- Look a key up in a decoded JSON object (Python `dict.get`). -/
def jget (kvs : List (String × Json)) (key : String) : Option Json :=
  (kvs.find? (fun kv => kv.1 == key)).map Prod.snd

/-- A JSON field read as a list of strings; the `[]` default of
`dict.get(key, [])` for a missing or non-list field (non-string members
of a list are dropped — well-formed payloads per the spec's data model
contain only strings there). -/
def jStrList : Option Json → List String
  | some (.arr xs) => xs.filterMap (fun j => match j with | .str s => some s | _ => none)
  | _ => []

/-- A JSON field read as a string; non-strings become `none`, which is
how the scorers' `isinstance(str)` guards treat them. -/
def jStr : Option Json → Option String
  | some (.str s) => some s
  | _ => none

/-- A JSON field read as a number; non-numbers become `none`, which is
how the scorers' `isinstance((int, float))` guards treat them. -/
def jNum : Option Json → Option ℚ
  | some (.num q) => some q
  | _ => none

/-- The `JobProfile` dictionary as `calculate_skill_match`,
`check_essential_requirements` and `calculate_match_score` read it. -/
def toJdData (kvs : List (String × Json)) : JdData where
  required_skills := (jStrList (jget kvs "required_skills")).toFinset
  preferred_skills := (jStrList (jget kvs "preferred_skills")).toFinset
  domain_expertise := (jStrList (jget kvs "domain_expertise")).toFinset
  soft_skills := (jStrList (jget kvs "soft_skills")).toFinset
  required_experience_years := jStr (jget kvs "required_experience_years")
  required_education := jStr (jget kvs "required_education")
  essential_requirements := (jStrList (jget kvs "essential_requirements")).toFinset

/-- The `CandidateProfile` dictionary as the scorers read it. -/
def toCvData (kvs : List (String × Json)) : CvData where
  skills := (jStrList (jget kvs "skills")).toFinset
  domain_expertise := (jStrList (jget kvs "domain_expertise")).toFinset
  soft_skills := (jStrList (jget kvs "soft_skills")).toFinset
  certifications := (jStrList (jget kvs "certifications")).toFinset
  education := jStrList (jget kvs "education")
  total_experience_years := jNum (jget kvs "total_experience_years")

/-- Python `round(x, 3)` (round-half-to-even), with floats as rationals. -/
def pyRound3 (q : ℚ) : ℚ :=
  let x := q * 1000
  let f : ℤ := Rat.floor x
  let r := x - (f : ℚ)
  ((if r < 1/2 then f
    else if r > 1/2 then f + 1
    else if f % 2 = 0 then f else f + 1 : ℤ) : ℚ) / 1000

/-- The `match_details` dictionary built at step 6 of
`calculate_match_score` (component scores rounded to 3 places). -/
structure MatchDetails where
  skills_score : ℚ
  experience_score : ℚ
  education_score : ℚ
  requirements_score : ℚ
  deriving DecidableEq

/-- The second return component of `calculate_match_score`: the error
dictionary of the two failure paths, or the details dictionary. -/
inductive ScoreDetails where
  | errMissing : ScoreDetails
  | errInvalid (jd_invalid cv_invalid : Bool) : ScoreDetails
  | ok (d : MatchDetails) : ScoreDetails
  deriving DecidableEq

/-- A `job_descriptions` row (only the column the scorer reads). -/
structure JdRow where
  summary_json : Option String

/-- A `candidates` row (only the column the scorer reads). -/
structure CandidateRow where
  extracted_data_json : Option String

/-- Whether the decoded payload is a JSON object (Python
`isinstance(·, dict)`). -/
def isObj : Option Json → Bool
  | some (.obj _) => true
  | _ => false

/-- `calculate_match_score` from `matching_agent.py`, a total function:
`(None, missing-row error)` when either DB row is absent, `(0.0, invalid
structure error naming the bad side(s))` when a present payload does not
decode to a JSON object, and the weighted clamped score with a details
breakdown otherwise. -/
def calculate_match_score (loads : String → Option Json) (jd_row : Option JdRow)
    (candidate_row : Option CandidateRow) (w : Weights) : Option ℚ × ScoreDetails :=
  match jd_row, candidate_row with
  | none, _ => (none, .errMissing)
  | _, none => (none, .errMissing)
  | some jr, some cr =>
    let jd_data := safe_json_loads loads jr.summary_json
    let cv_data := safe_json_loads loads cr.extracted_data_json
    match jd_data, cv_data with
    | some (.obj jkvs), some (.obj ckvs) =>
      let jd := toJdData jkvs
      let cv := toCvData ckvs
      let skill_score := calculate_skill_match jd cv
      let experience_score :=
        calculate_experience_match jd.required_experience_years cv.total_experience_years
      let education_score := calculate_education_match jd.required_education (some cv.education)
      let requirements_score := check_essential_requirements jd cv
      (some (compute_overall jd cv w),
       .ok ⟨pyRound3 skill_score, pyRound3 experience_score,
            pyRound3 education_score, pyRound3 requirements_score⟩)
    | _, _ => (some 0, .errInvalid (!isObj jd_data) (!isObj cv_data))

/-! ### `shortlist_candidates_for_jd` (`shortlisting_agent.py`)

The `matches` rows of one JD are modelled as a list; `match_id` is the
table's primary key. -/

structure MatchRow where
  match_id : Nat
  candidate_id : Nat
  cv_filename : String
  match_score : ℚ
  shortlist_status : Bool
  deriving DecidableEq

/-- One returned shortlist entry (`candidate_id`, `cv_filename`,
`match_score` rounded to 3 places). -/
structure Shortlisted where
  candidate_id : Nat
  cv_filename : String
  match_score : ℚ
  deriving DecidableEq

/-- `update_shortlist_status`: set the flag of the row(s) with the given
`match_id`. -/
def updateStatus (db : List MatchRow) (mid : Nat) (status : Bool) : List MatchRow :=
  db.map (fun r => if r.match_id = mid then { r with shortlist_status := status } else r)

/-- Insertion step of the `ORDER BY match_score DESC` of
`get_matches_for_jd`. -/
def insertByScore (r : MatchRow) : List MatchRow → List MatchRow
  | [] => [r]
  | x :: xs => if r.match_score ≥ x.match_score then r :: x :: xs else x :: insertByScore r xs

/-- The match rows sorted by score, descending. -/
def sortByScoreDesc (db : List MatchRow) : List MatchRow :=
  db.foldr insertByScore []

/-- Loop body of `shortlist_candidates_for_jd`: append to the returned
list when the score meets the threshold, and overwrite the row's flag
with `score >= threshold` regardless. -/
def shortlistStep (t : ℚ) (acc : List Shortlisted × List MatchRow) (row : MatchRow) :
    List Shortlisted × List MatchRow :=
  let status : Bool := decide (row.match_score ≥ t)
  let lst := if row.match_score ≥ t
             then acc.1 ++ [⟨row.candidate_id, row.cv_filename, pyRound3 row.match_score⟩]
             else acc.1
  (lst, updateStatus acc.2 row.match_id status)

/-- `shortlist_candidates_for_jd` from `shortlisting_agent.py`, returning
the shortlist together with the updated `matches` rows. -/
def shortlist_candidates_for_jd (t : ℚ) (db : List MatchRow) :
    List Shortlisted × List MatchRow :=
  let all_matches := sortByScoreDesc db
  if all_matches = [] then ([], db)
  else all_matches.foldl (shortlistStep t) ([], db)

/-! ### Division-checked mirrors of the component scorers (for the
division-safety claim): every `/` of the Python code is replaced by
`checkedDiv`, which refuses a zero denominator. -/

/-- Division that fails on a zero denominator. -/
def checkedDiv (a b : ℚ) : Option ℚ := if b = 0 then none else some (a / b)

/-- `calculate_skill_match` with every division checked. -/
def calculate_skill_match_checked (jd : JdData) (cv : CvData) : Option ℚ := do
  let jd_req_raw := jd.required_skills
  let jd_pref_raw := jd.preferred_skills
  let jd_dom_raw := jd.domain_expertise
  let jd_soft_raw := jd.soft_skills
  let jd_req := expand_skills jd_req_raw SKILL_SYNONYMS
  let jd_pref := expand_skills jd_pref_raw SKILL_SYNONYMS
  let jd_dom := expand_skills jd_dom_raw SKILL_SYNONYMS
  let jd_soft := jd_soft_raw
  let all_cv := cv.skills ∪ cv.domain_expertise ∪ cv.soft_skills
  let required_match : ℚ ←
    if jd_req_raw ≠ ∅ then checkedDiv ((jd_req ∩ all_cv).card : ℚ) (jd_req_raw.card : ℚ)
    else pure (5/10 : ℚ)
  let preferred_match : ℚ ←
    if jd_pref_raw ≠ ∅ then checkedDiv ((jd_pref ∩ all_cv).card : ℚ) (jd_pref_raw.card : ℚ)
    else pure 0
  let domain_match : ℚ ←
    if jd_dom_raw ≠ ∅ then
      checkedDiv ((jd_dom ∩ cv.domain_expertise).card : ℚ) (jd_dom_raw.card : ℚ)
    else pure (5/10 : ℚ)
  let soft_match : ℚ ←
    if jd_soft_raw ≠ ∅ then
      checkedDiv ((jd_soft ∩ cv.soft_skills).card : ℚ) (jd_soft_raw.card : ℚ)
    else pure (5/10 : ℚ)
  let weighted_score : ℚ :=
    (if jd_req_raw ≠ ∅ then required_match * (60/100 : ℚ) else 0) +
    (if jd_pref_raw ≠ ∅ then preferred_match * (10/100 : ℚ) else 0) +
    (if jd_dom_raw ≠ ∅ then domain_match * (15/100 : ℚ) else 0) +
    (if jd_soft_raw ≠ ∅ then soft_match * (15/100 : ℚ) else 0)
  let total_weight : ℚ :=
    (if jd_req_raw ≠ ∅ then (60/100 : ℚ) else 0) +
    (if jd_pref_raw ≠ ∅ then (10/100 : ℚ) else 0) +
    (if jd_dom_raw ≠ ∅ then (15/100 : ℚ) else 0) +
    (if jd_soft_raw ≠ ∅ then (15/100 : ℚ) else 0)
  if total_weight = 0 then pure (5/10 : ℚ) else checkedDiv weighted_score total_weight

/-- `check_essential_requirements` with its division checked. -/
def check_essential_requirements_checked (jd : JdData) (cv : CvData) : Option ℚ :=
  if jd.essential_requirements = ∅ then some 1
  else checkedDiv ((jd.essential_requirements.filter (reqIsMet cv)).card : ℚ)
                  (jd.essential_requirements.card : ℚ)

/-- `calculate_experience_match` with its division checked. -/
def calculate_experience_match_checked (jd_exp_years_str : Option String)
    (cv_total_exp_years : Option ℚ) : Option ℚ :=
  match parse_experience_years jd_exp_years_str with
  | none =>
    match cv_total_exp_years with
    | some c => some (if c > 0 then (5/10 : ℚ) else 0)
    | none => some 0
  | some jd_min_years =>
    match cv_total_exp_years with
    | none => some 0
    | some c =>
      if c < 0 then some 0
      else if c ≥ jd_min_years then
        some (min 1 (1 + min (2/10 : ℚ) ((c - jd_min_years) * (5/100 : ℚ))))
      else (checkedDiv c jd_min_years).map (fun p => max 0 p)


/-! ### Auxiliary views of the shortlisting pass -/

/-- The flag overwrite `score >= threshold` applied to one stored row. -/
def setFlag (t : ℚ) (r : MatchRow) : MatchRow :=
  { r with shortlist_status := decide (r.match_score ≥ t) }

/-- The returned entry built from one row. -/
def mkEntry (r : MatchRow) : Shortlisted :=
  ⟨r.candidate_id, r.cv_filename, pyRound3 r.match_score⟩

/-- The list `shortlist_candidates_for_jd` returns for a processing
order. -/
def selectList (t : ℚ) (todo : List MatchRow) : List Shortlisted :=
  (todo.filter (fun r => decide (r.match_score ≥ t))).map mkEntry

/-- All DB updates performed over a processing order. -/
def applyUpdates (t : ℚ) (todo : List MatchRow) (d : List MatchRow) : List MatchRow :=
  todo.foldl (fun d r => updateStatus d r.match_id (decide (r.match_score ≥ t))) d

/-- The effect of the whole update pass on a single stored row. -/
def stepAll (t : ℚ) (todo : List MatchRow) (r0 : MatchRow) : MatchRow :=
  todo.foldl (fun r0 r =>
    if r0.match_id = r.match_id then { r0 with shortlist_status := decide (r.match_score ≥ t) }
    else r0) r0

/-- A two-row `matches` table for one JD (distinct primary keys). -/
def dbW : List MatchRow := [⟨1, 10, "a.pdf", 8/10, false⟩, ⟨2, 11, "b.pdf", 1/2, true⟩]

/-! ## Theorems -/

/-! ### Concrete scenario records -/

/-- The end-to-end scenario JD of the spec's acceptance test. -/
def jdScenario : JdData :=
  ⟨{"python", "sql"}, ∅, ∅, ∅, some "3 years", some "bachelor's degree", ∅⟩

/-- The end-to-end scenario candidate of the spec's acceptance test. -/
def cvScenario : CvData :=
  ⟨{"python", "django"}, ∅, ∅, ∅, ["bachelor of science"], some 4⟩

/-- A JD requiring only the skill `"sql"`. -/
def jdSqlOnly : JdData := ⟨{"sql"}, ∅, ∅, ∅, none, none, ∅⟩

/-- A candidate listing both `"sql"` and its synonym category
`"databases"` as skills. -/
def cvSqlAndDatabases : CvData := ⟨{"sql", "databases"}, ∅, ∅, ∅, [], none⟩

/-- A JD whose only content is the essential requirement `"AWS"`. -/
def jdReqAws : JdData := ⟨∅, ∅, ∅, ∅, none, none, {"AWS"}⟩

/-- A candidate whose only content is the skill `"aws"`. -/
def cvAws : CvData := ⟨{"aws"}, ∅, ∅, ∅, [], none⟩

/-- C2: in the end-to-end scenario (job requires {python, sql},
bachelor's degree, 3 years; candidate has {python, django}, a bachelor
of science, 4 years) the component scores are skills = 0.5,
education = 1, experience = 1, requirements = 1, and the overall score
under the default weights is exactly 0.80. -/
theorem end_to_end_default_weights :
    calculate_skill_match jdScenario cvScenario = 5/10 ∧
    calculate_education_match jdScenario.required_education (some cvScenario.education) = 1 ∧
    calculate_experience_match jdScenario.required_experience_years
      cvScenario.total_experience_years = 1 ∧
    check_essential_requirements jdScenario cvScenario = 1 ∧
    compute_overall jdScenario cvScenario DEFAULT_WEIGHTS = 80/100 := by
  with_unfolding_all decide

/-- C1 counterexample: `calculate_skill_match` is NOT bounded by 1.  For
a job requiring only `"sql"` and a candidate listing both `"sql"` and
the expansion-added category `"databases"`, the expanded intersection
has 2 elements while the raw required set has 1, so the score is 2. -/
theorem skill_match_exceeds_one_cex :
    calculate_skill_match jdSqlOnly cvSqlAndDatabases = 2 ∧
    ¬ calculate_skill_match jdSqlOnly cvSqlAndDatabases ≤ 1 := by
  with_unfolding_all decide

/-- C3 counterexample: with the vague JD education string
`"related field"` (no hierarchy keyword, length > 3), an empty CV
education list scores 0, not the 0.5 the claim asserts, because the
code's empty-CV check precedes the vague-JD rule. -/
theorem education_vague_jd_empty_cv_cex :
    calculate_education_match (some "related field") (some []) = 0 ∧
    calculate_education_match (some "related field") none = 0 ∧
    ¬ calculate_education_match (some "related field") (some []) = 5/10 := by
  with_unfolding_all decide

/-! ### Component bounds -/

theorem education_bounds (s : Option String) (l : Option (List String)) :
    0 ≤ calculate_education_match s l ∧ calculate_education_match s l ≤ 1 := by
  unfold calculate_education_match
  rcases s with _ | s
  · norm_num
  · rcases l with _ | l <;> dsimp only <;> split_ifs <;> norm_num

theorem experience_bounds (s : Option String) (c : Option ℚ) :
    0 ≤ calculate_experience_match s c ∧ calculate_experience_match s c ≤ 1 := by
  unfold calculate_experience_match
  cases hp : parse_experience_years s with
  | none =>
    rcases c with _ | c
    · norm_num
    · dsimp only
      split_ifs <;> norm_num
  | some m =>
    rcases c with _ | c
    · norm_num
    · dsimp only
      split_ifs with h1 h2
      · norm_num
      · constructor
        · have hb : (0:ℚ) ≤ min (2/10 : ℚ) ((c - m) * (5/100)) := by
            apply le_min (by norm_num)
            have hcm : m ≤ c := h2
            nlinarith
          have h1b : (0:ℚ) ≤ 1 + min (2/10 : ℚ) ((c - m) * (5/100)) := by linarith
          exact le_min (by norm_num) h1b
        · exact min_le_left _ _
      · constructor
        · exact le_max_left 0 _
        · have hc0 : (0:ℚ) ≤ c := not_lt.mp h1
          have hm : c < m := not_le.mp h2
          have hmpos : (0:ℚ) < m := lt_of_le_of_lt hc0 hm
          have hle : c / m ≤ 1 := (div_le_one hmpos).mpr hm.le
          exact max_le (by norm_num) hle

theorem requirements_bounds (jd : JdData) (cv : CvData) :
    0 ≤ check_essential_requirements jd cv ∧ check_essential_requirements jd cv ≤ 1 := by
  unfold check_essential_requirements
  dsimp only
  split_ifs with h
  · norm_num
  · constructor
    · positivity
    · have hpos : 0 < ((jd.essential_requirements.card : ℚ)) := by
        have := Finset.card_pos.mpr (Finset.nonempty_iff_ne_empty.mpr h)
        exact_mod_cast this
      rw [div_le_one hpos]
      exact_mod_cast Finset.card_filter_le _ _

theorem skill_match_nonneg (jd : JdData) (cv : CvData) : 0 ≤ calculate_skill_match jd cv := by
  unfold calculate_skill_match
  dsimp only
  split_ifs <;> positivity

theorem overall_bounds (jd : JdData) (cv : CvData) (w : Weights) :
    0 ≤ compute_overall jd cv w ∧ compute_overall jd cv w ≤ 1 := by
  unfold compute_overall
  exact ⟨le_max_left 0 _, max_le (by norm_num) (min_le_left _ _)⟩

/-- C1 amended: every component score is nonnegative; the experience,
education and requirements components lie in `[0,1]`; and the clamped
overall score lies in `[0,1]` for every weight vector.  The skill
component, however, is NOT bounded by 1 (see the counterexample): the
expanded-intersection/raw-cardinality ratio can exceed 1. -/
theorem component_and_overall_bounds_amended (jd : JdData) (cv : CvData) (w : Weights) :
    0 ≤ calculate_skill_match jd cv ∧
    0 ≤ calculate_experience_match jd.required_experience_years cv.total_experience_years ∧
    calculate_experience_match jd.required_experience_years cv.total_experience_years ≤ 1 ∧
    0 ≤ calculate_education_match jd.required_education (some cv.education) ∧
    calculate_education_match jd.required_education (some cv.education) ≤ 1 ∧
    0 ≤ check_essential_requirements jd cv ∧ check_essential_requirements jd cv ≤ 1 ∧
    0 ≤ compute_overall jd cv w ∧ compute_overall jd cv w ≤ 1 :=
  ⟨skill_match_nonneg jd cv,
   (experience_bounds _ _).1, (experience_bounds _ _).2,
   (education_bounds _ _).1, (education_bounds _ _).2,
   (requirements_bounds jd cv).1, (requirements_bounds jd cv).2,
   (overall_bounds jd cv w).1, (overall_bounds jd cv w).2⟩

/-! ### Education level lemmas -/

theorem foldl_max_level_eq_init (low : String) (hier : List (String × Nat)) (init : Nat)
    (h : ∀ kv ∈ hier, strContains low kv.1 = false) :
    hier.foldl (fun lv dk => if strContains low dk.1 then max lv dk.2 else lv) init = init := by
  induction hier generalizing init with
  | nil => rfl
  | cons kv rest ih =>
    have h1 : strContains low kv.1 = false := h kv (List.mem_cons_self _ _)
    simp only [List.foldl_cons, h1, Bool.false_eq_true, if_false]
    exact ih init (fun kv' hk => h kv' (List.mem_cons_of_mem _ hk))

theorem jdLevelOf_eq_zero {low : String}
    (h : ∀ kv ∈ degree_hierarchy, strContains low kv.1 = false) : jdLevelOf low = 0 :=
  foldl_max_level_eq_init low degree_hierarchy 0 h

/-- C3 amended: for a JD education string containing no hierarchy
keyword and longer than 3 characters, `calculate_education_match`
returns 0.5 only for a NON-empty proper list; an empty or non-list
`cv_education` returns 0.0, because the code applies the empty-CV check
before computing the JD level (the opposite order from the claim). -/
theorem education_vague_jd_neutral_amended (s : String) (l : List String)
    (hkw : ∀ kv ∈ degree_hierarchy, strContains (strLower s) kv.1 = false)
    (hlen : 3 < (strLower s).data.length)
    (hne : s ≠ "") (hnl : strLower s ∉ NONE_LITERALS) (hl : l ≠ []) :
    calculate_education_match (some s) (some l) = 5/10 ∧
    calculate_education_match (some s) (some []) = 0 ∧
    calculate_education_match (some s) none = 0 := by
  have hcond : ¬ (s = "" ∨ strLower s ∈ NONE_LITERALS) := by
    push_neg
    exact ⟨hne, hnl⟩
  have hz : jdLevelOf (strLower s) = 0 := jdLevelOf_eq_zero hkw
  refine ⟨?_, ?_, ?_⟩
  · unfold calculate_education_match
    dsimp only
    rw [if_neg hcond, if_neg hl, if_pos ⟨hz, hlen⟩]
  · unfold calculate_education_match
    dsimp only
    rw [if_neg hcond, if_pos rfl]
  · unfold calculate_education_match
    dsimp only
    rw [if_neg hcond]

/-- C3 amended, witness at the concrete vague JD string
`"related field"`. -/
theorem education_vague_jd_neutral_amended_witness :
    calculate_education_match (some "related field") (some ["x"]) = 5/10 ∧
    calculate_education_match (some "related field") (some []) = 0 ∧
    calculate_education_match (some "related field") none = 0 :=
  education_vague_jd_neutral_amended "related field" ["x"]
    (by with_unfolding_all decide) (by with_unfolding_all decide)
    (by with_unfolding_all decide) (by with_unfolding_all decide)
    (by with_unfolding_all decide)

theorem parse_experience_years_nonneg {s : Option String} {m : ℚ}
    (h : parse_experience_years s = some m) : 0 ≤ m := by
  rcases s with _ | s
  · simp [parse_experience_years] at h
  · unfold parse_experience_years at h
    dsimp only at h
    by_cases he : s = ""
    · rw [if_pos he] at h
      exact absurd h (by simp)
    · rw [if_neg he, Option.map_eq_some'] at h
      obtain ⟨tok, hf, hval⟩ := h
      subst hval
      unfold floatOfToken
      positivity

/-- C4: `calculate_experience_match` returns 0.5/0.0 when the JD string
parses to no number (according to whether the CV years are positive);
0.0 when the JD parses but the CV years are missing or negative;
exactly 1.0 when the CV meets the requirement (the computed bonus is
clamped away); the ratio `cv/jd` below the requirement; and the five
concrete example values. -/
theorem experience_match_spec :
    (∀ (s : Option String) (c : ℚ), parse_experience_years s = none →
        calculate_experience_match s (some c) = (if 0 < c then 5/10 else 0) ∧
        calculate_experience_match s none = 0) ∧
    (∀ (s : Option String) (m c : ℚ), parse_experience_years s = some m →
        calculate_experience_match s none = 0 ∧
        (c < 0 → calculate_experience_match s (some c) = 0) ∧
        (m ≤ c → calculate_experience_match s (some c) = 1) ∧
        (0 ≤ c → c < m → calculate_experience_match s (some c) = c / m)) ∧
    calculate_experience_match (some "5 years") (some (5/2)) = 5/10 ∧
    calculate_experience_match (some "5 years") (some 5) = 1 ∧
    calculate_experience_match (some "5 years") none = 0 ∧
    calculate_experience_match none (some 3) = 5/10 ∧
    calculate_experience_match none none = 0 := by
  refine ⟨?_, ?_, ?_, ?_, ?_, ?_, ?_⟩
  · intro s c hp
    unfold calculate_experience_match
    rw [hp]
    dsimp only
    exact ⟨rfl, rfl⟩
  · intro s m c hp
    have hm0 : 0 ≤ m := parse_experience_years_nonneg hp
    unfold calculate_experience_match
    rw [hp]
    dsimp only
    refine ⟨rfl, ?_, ?_, ?_⟩
    · intro hc
      rw [if_pos hc]
    · intro hmc
      rw [if_neg (not_lt.mpr (le_trans hm0 hmc)), if_pos hmc]
      have hb : (0:ℚ) ≤ min (2/10 : ℚ) ((c - m) * (5/100)) := by
        apply le_min (by norm_num)
        nlinarith
      exact min_eq_left (by linarith)
    · intro hc0 hcm
      rw [if_neg (not_lt.mpr hc0), if_neg (not_le.mpr hcm)]
      exact max_eq_right (div_nonneg hc0 (le_trans hc0 hcm.le))
  · with_unfolding_all decide
  · with_unfolding_all decide
  · with_unfolding_all decide
  · with_unfolding_all decide
  · with_unfolding_all decide

/-- C4, witness: the partial-credit branch applied at the concrete JD
string `"7 yrs"` and CV years 3. -/
theorem experience_match_spec_witness :
    calculate_experience_match (some "7 yrs") (some 3) = 3 / 7 :=
  (experience_match_spec.2.1 (some "7 yrs") 7 3
      (by with_unfolding_all decide)).2.2.2
    (by with_unfolding_all decide) (by with_unfolding_all decide)

/-- C5: with a recognized JD degree level (≥ 1) and a non-empty CV
education list, `calculate_education_match` is exactly 1.0 when the best
CV level meets the JD level and exactly 0.0 otherwise, with the three
concrete "Master's degree required" examples. -/
theorem education_hard_threshold :
    (∀ (s : String) (l : List String), s ≠ "" → strLower s ∉ NONE_LITERALS → l ≠ [] →
        1 ≤ jdLevelOf (strLower s) →
        calculate_education_match (some s) (some l) =
          (if jdLevelOf (strLower s) ≤ cvLevelOf l then 1 else 0)) ∧
    calculate_education_match (some "Master's degree required") (some ["bachelor of science"]) = 0 ∧
    calculate_education_match (some "Master's degree required") (some ["master of science"]) = 1 ∧
    calculate_education_match (some "Master's degree required") (some ["phd in physics"]) = 1 := by
  refine ⟨?_, ?_, ?_, ?_⟩
  · intro s l hne hnl hl hlev
    have hcond : ¬ (s = "" ∨ strLower s ∈ NONE_LITERALS) := by
      push_neg
      exact ⟨hne, hnl⟩
    unfold calculate_education_match
    dsimp only
    rw [if_neg hcond, if_neg hl,
        if_neg (by omega : ¬ (jdLevelOf (strLower s) = 0 ∧ 3 < (strLower s).data.length)),
        if_neg (by omega : ¬ jdLevelOf (strLower s) = 0)]
  · with_unfolding_all decide
  · with_unfolding_all decide
  · with_unfolding_all decide

/-- C5, witness: the threshold comparison applied at the concrete JD
string `"Master's degree required"` and a bachelor-level CV. -/
theorem education_hard_threshold_witness :
    calculate_education_match (some "Master's degree required") (some ["bachelor of science"]) =
      (if jdLevelOf (strLower "Master's degree required") ≤ cvLevelOf ["bachelor of science"]
       then 1 else 0) :=
  education_hard_threshold.1 "Master's degree required" ["bachelor of science"]
    (by with_unfolding_all decide) (by with_unfolding_all decide)
    (by with_unfolding_all decide) (by with_unfolding_all decide)

/-- C6: `check_essential_requirements` is 1.0 for every candidate when
the JD lists no essential requirements, and otherwise the fraction of
requirements met, where a lower-cased requirement is met exactly when it
equals a member of `skills ∪ certifications` or occurs as a substring of
the space-joined lower-cased education phrases. -/
theorem essential_requirements_spec (jd : JdData) (cv : CvData) :
    (jd.essential_requirements = ∅ → check_essential_requirements jd cv = 1) ∧
    (jd.essential_requirements ≠ ∅ →
      check_essential_requirements jd cv =
        ((jd.essential_requirements.filter (fun req =>
            strLower req ∈ cv.skills ∪ cv.certifications ∨
              strContains (joinSpace (cv.education.map strLower)) (strLower req) = true)).card : ℚ) /
          (jd.essential_requirements.card : ℚ)) := by
  constructor
  · intro h
    unfold check_essential_requirements
    dsimp only
    rw [if_pos h]
  · intro h
    unfold check_essential_requirements
    dsimp only
    rw [if_neg h]
    rfl

/-- C6, witness: both branches applied at concrete records. -/
theorem essential_requirements_spec_witness :
    check_essential_requirements jdReqAws cvAws =
      ((jdReqAws.essential_requirements.filter (fun req =>
          strLower req ∈ cvAws.skills ∪ cvAws.certifications ∨
            strContains (joinSpace (cvAws.education.map strLower)) (strLower req) = true)).card : ℚ) /
        (jdReqAws.essential_requirements.card : ℚ) ∧
    check_essential_requirements ⟨∅, ∅, ∅, ∅, none, none, ∅⟩ cvAws = 1 :=
  ⟨(essential_requirements_spec jdReqAws cvAws).2 (by with_unfolding_all decide),
   (essential_requirements_spec ⟨∅, ∅, ∅, ∅, none, none, ∅⟩ cvAws).1 rfl⟩

/-! ### `expand_skills` membership lemmas -/

theorem mem_directSyns {x s : String} {synonyms : List (String × List String)} :
    x ∈ directSyns s synonyms ↔ ∃ kv ∈ synonyms, kv.1 = s ∧ x ∈ kv.2 := by
  induction synonyms with
  | nil => simp [directSyns]
  | cons kv rest ih =>
    simp only [directSyns, List.foldr_cons] at ih ⊢
    by_cases h : kv.1 = s
    · simp only [h, if_true, Finset.mem_union, List.mem_toFinset, ih, List.mem_cons]
      constructor
      · rintro (hx | ⟨kv', hkv', hs, hxkv'⟩)
        · exact ⟨kv, Or.inl rfl, h, hx⟩
        · exact ⟨kv', Or.inr hkv', hs, hxkv'⟩
      · rintro ⟨kv', (rfl | hkv'), hs, hxkv'⟩
        · exact Or.inl hxkv'
        · exact Or.inr ⟨kv', hkv', hs, hxkv'⟩
    · simp only [h, if_false, ih, List.mem_cons]
      constructor
      · rintro ⟨kv', hkv', hs, hxkv'⟩
        exact ⟨kv', Or.inr hkv', hs, hxkv'⟩
      · rintro ⟨kv', (rfl | hkv'), hs, hxkv'⟩
        · exact absurd hs h
        · exact ⟨kv', hkv', hs, hxkv'⟩

theorem mem_categoryKeys {x s : String} {synonyms : List (String × List String)} :
    x ∈ categoryKeys s synonyms ↔ ∃ kv ∈ synonyms, kv.1 = x ∧ s ∈ kv.2 := by
  induction synonyms with
  | nil => simp [categoryKeys]
  | cons kv rest ih =>
    simp only [categoryKeys, List.foldr_cons] at ih ⊢
    by_cases h : s ∈ kv.2
    · simp only [h, if_true, Finset.mem_insert, ih, List.mem_cons]
      constructor
      · rintro (rfl | ⟨kv', hkv', hk, hs⟩)
        · exact ⟨kv, Or.inl rfl, rfl, h⟩
        · exact ⟨kv', Or.inr hkv', hk, hs⟩
      · rintro ⟨kv', (rfl | hkv'), hk, hs⟩
        · exact Or.inl hk.symm
        · exact Or.inr ⟨kv', hkv', hk, hs⟩
    · simp only [h, if_false, ih, List.mem_cons]
      constructor
      · rintro ⟨kv', hkv', hk, hs⟩
        exact ⟨kv', Or.inr hkv', hk, hs⟩
      · rintro ⟨kv', (rfl | hkv'), hk, hs⟩
        · exact absurd hs h
        · exact ⟨kv', hkv', hk, hs⟩

theorem mem_expand_skills {x : String} {terms : Finset String}
    {synonyms : List (String × List String)} (h : terms ≠ ∅) :
    x ∈ expand_skills terms synonyms ↔
      x ∈ terms ∨ (∃ t ∈ terms, ∃ kv ∈ synonyms, kv.1 = t ∧ x ∈ kv.2) ∨
        (∃ t ∈ terms, ∃ kv ∈ synonyms, kv.1 = x ∧ t ∈ kv.2) := by
  unfold expand_skills
  rw [if_neg h]
  simp only [Finset.mem_union, Finset.mem_biUnion, mem_directSyns, mem_categoryKeys]
  constructor
  · rintro (hx | ⟨t, ht, (⟨kv, hkv, hk, hxk⟩ | ⟨kv, hkv, hk, hsk⟩)⟩)
    · exact Or.inl hx
    · exact Or.inr (Or.inl ⟨t, ht, kv, hkv, hk, hxk⟩)
    · exact Or.inr (Or.inr ⟨t, ht, kv, hkv, hk, hsk⟩)
  · rintro (hx | ⟨t, ht, kv, hkv, hk, hxk⟩ | ⟨t, ht, kv, hkv, hk, hsk⟩)
    · exact Or.inl hx
    · exact Or.inr ⟨t, ht, Or.inl ⟨kv, hkv, hk, hxk⟩⟩
    · exact Or.inr ⟨t, ht, Or.inr ⟨kv, hkv, hk, hsk⟩⟩

/-- C7: `expand_skills` maps the empty set to the empty set; a non-empty
set is a subset of its expansion, and membership in the expansion is
EXACTLY original membership, a one-hop key→member step, or a one-hop
member→key step (so no transitive closure); in particular the
"databases"/"sql" symmetry instances hold for the static table. -/
theorem expand_skills_one_hop :
    (∀ synonyms, expand_skills ∅ synonyms = ∅) ∧
    (∀ (terms : Finset String) (synonyms : List (String × List String)), terms ≠ ∅ →
      terms ⊆ expand_skills terms synonyms ∧
      ∀ x, x ∈ expand_skills terms synonyms ↔
        x ∈ terms ∨ (∃ t ∈ terms, ∃ kv ∈ synonyms, kv.1 = t ∧ x ∈ kv.2) ∨
          (∃ t ∈ terms, ∃ kv ∈ synonyms, kv.1 = x ∧ t ∈ kv.2)) ∧
    "databases" ∈ expand_skills {"sql"} SKILL_SYNONYMS ∧
    "sql" ∈ expand_skills {"databases"} SKILL_SYNONYMS := by
  refine ⟨?_, ?_, ?_, ?_⟩
  · intro synonyms
    unfold expand_skills
    rw [if_pos rfl]
  · intro terms synonyms h
    refine ⟨?_, fun x => mem_expand_skills h⟩
    intro a ha
    exact (mem_expand_skills h).mpr (Or.inl ha)
  · with_unfolding_all decide
  · with_unfolding_all decide

/-- C7, witness: the subset part applied at the concrete set
`{"sql"}` and the static table. -/
theorem expand_skills_one_hop_witness :
    ("sql" : String) ∈ expand_skills {"sql"} SKILL_SYNONYMS :=
  (expand_skills_one_hop.2.1 {"sql"} SKILL_SYNONYMS (by with_unfolding_all decide)).1
    (by with_unfolding_all decide)

/-- C8: `calculate_match_score` distinguishes the two failure kinds:
an absent job or candidate row yields `(None, missing-row error)` (no
numeric score); present rows whose payload does not decode to a JSON
object yield `(0.0, error breakdown naming the invalid side(s))`; and
when both payloads are objects a numeric score with a details breakdown
is returned.  The embedding is a total function, so no case raises. -/
theorem match_score_error_paths (loads : String → Option Json) (jr : Option JdRow)
    (cr : Option CandidateRow) (w : Weights) :
    ((jr = none ∨ cr = none) →
      calculate_match_score loads jr cr w = (none, ScoreDetails.errMissing)) ∧
    (∀ jrow crow, jr = some jrow → cr = some crow →
      ¬(isObj (safe_json_loads loads jrow.summary_json) = true ∧
          isObj (safe_json_loads loads crow.extracted_data_json) = true) →
      (calculate_match_score loads jr cr w).1 = some 0 ∧
      (calculate_match_score loads jr cr w).2 =
        ScoreDetails.errInvalid (!isObj (safe_json_loads loads jrow.summary_json))
          (!isObj (safe_json_loads loads crow.extracted_data_json))) ∧
    (∀ jrow crow, jr = some jrow → cr = some crow →
      isObj (safe_json_loads loads jrow.summary_json) = true →
      isObj (safe_json_loads loads crow.extracted_data_json) = true →
      ∃ (q : ℚ) (d : MatchDetails),
        calculate_match_score loads jr cr w = (some q, ScoreDetails.ok d)) := by
  refine ⟨?_, ?_, ?_⟩
  · rintro (rfl | rfl)
    · cases cr <;> rfl
    · cases jr <;> rfl
  · intro jrow crow hj hc hbad
    subst hj
    subst hc
    unfold calculate_match_score
    dsimp only
    rcases hA : safe_json_loads loads jrow.summary_json with _ | j
    · rcases hB : safe_json_loads loads crow.extracted_data_json with _ | k
      · exact ⟨rfl, rfl⟩
      · cases k <;> exact ⟨rfl, rfl⟩
    · rcases hB : safe_json_loads loads crow.extracted_data_json with _ | k
      · cases j <;> exact ⟨rfl, rfl⟩
      · rw [hA, hB] at hbad
        cases j with
        | obj jkvs =>
          cases k with
          | obj ckvs => exact absurd ⟨rfl, rfl⟩ hbad
          | arr a => exact ⟨rfl, rfl⟩
          | str a => exact ⟨rfl, rfl⟩
          | num a => exact ⟨rfl, rfl⟩
          | jbool a => exact ⟨rfl, rfl⟩
          | null => exact ⟨rfl, rfl⟩
        | arr a => cases k <;> exact ⟨rfl, rfl⟩
        | str a => cases k <;> exact ⟨rfl, rfl⟩
        | num a => cases k <;> exact ⟨rfl, rfl⟩
        | jbool a => cases k <;> exact ⟨rfl, rfl⟩
        | null => cases k <;> exact ⟨rfl, rfl⟩
  · intro jrow crow hj hc hJ hC
    subst hj
    subst hc
    rcases hA : safe_json_loads loads jrow.summary_json with _ | j
    · rw [hA] at hJ
      exact absurd hJ (by simp [isObj])
    · rcases hB : safe_json_loads loads crow.extracted_data_json with _ | k
      · rw [hB] at hC
        exact absurd hC (by simp [isObj])
      · rw [hA] at hJ
        rw [hB] at hC
        cases j with
        | obj jkvs =>
          cases k with
          | obj ckvs =>
            refine ⟨compute_overall (toJdData jkvs) (toCvData ckvs) w,
              ⟨pyRound3 (calculate_skill_match (toJdData jkvs) (toCvData ckvs)),
               pyRound3 (calculate_experience_match (toJdData jkvs).required_experience_years
                 (toCvData ckvs).total_experience_years),
               pyRound3 (calculate_education_match (toJdData jkvs).required_education
                 (some (toCvData ckvs).education)),
               pyRound3 (check_essential_requirements (toJdData jkvs) (toCvData ckvs))⟩, ?_⟩
            unfold calculate_match_score
            dsimp only
            rw [hA, hB]
          | arr a => simp [isObj] at hC
          | str a => simp [isObj] at hC
          | num a => simp [isObj] at hC
          | jbool a => simp [isObj] at hC
          | null => simp [isObj] at hC
        | arr a => simp [isObj] at hJ
        | str a => simp [isObj] at hJ
        | num a => simp [isObj] at hJ
        | jbool a => simp [isObj] at hJ
        | null => simp [isObj] at hJ

/-- C8, witness: both error paths at concrete inputs (a decoder that
always fails). -/
theorem match_score_error_paths_witness :
    calculate_match_score (fun _ => none) none none DEFAULT_WEIGHTS =
      (none, ScoreDetails.errMissing) ∧
    (calculate_match_score (fun _ => none) (some ⟨some "x"⟩) (some ⟨some "x"⟩)
        DEFAULT_WEIGHTS).1 = some 0 :=
  ⟨(match_score_error_paths (fun _ => none) none none DEFAULT_WEIGHTS).1 (Or.inl rfl),
   ((match_score_error_paths (fun _ => none) (some ⟨some "x"⟩) (some ⟨some "x"⟩)
        DEFAULT_WEIGHTS).2.1 ⟨some "x"⟩ ⟨some "x"⟩ rfl rfl
      (by with_unfolding_all decide)).1⟩

/-! ### Division safety -/

theorem card_cast_ne_zero {s : Finset String} (h : s ≠ ∅) : ((s.card : ℚ)) ≠ 0 :=
  Nat.cast_ne_zero.mpr (by simpa [Finset.card_eq_zero] using h)

theorem skill_checked_eq (jd : JdData) (cv : CvData) :
    calculate_skill_match_checked jd cv = some (calculate_skill_match jd cv) := by
  by_cases h1 : jd.required_skills = ∅ <;> by_cases h2 : jd.preferred_skills = ∅ <;>
    by_cases h3 : jd.domain_expertise = ∅ <;> by_cases h4 : jd.soft_skills = ∅ <;>
    norm_num [calculate_skill_match_checked, calculate_skill_match, checkedDiv,
      h1, h2, h3, h4, Nat.cast_eq_zero, Finset.card_eq_zero]

theorem requirements_checked_eq (jd : JdData) (cv : CvData) :
    check_essential_requirements_checked jd cv = some (check_essential_requirements jd cv) := by
  unfold check_essential_requirements_checked check_essential_requirements
  dsimp only
  split_ifs with h
  · rfl
  · unfold checkedDiv
    rw [if_neg (card_cast_ne_zero h)]

theorem experience_checked_eq (s : Option String) (c : Option ℚ) :
    calculate_experience_match_checked s c = some (calculate_experience_match s c) := by
  unfold calculate_experience_match_checked calculate_experience_match
  cases parse_experience_years s with
  | none => cases c <;> rfl
  | some m =>
    cases c with
    | none => rfl
    | some cv =>
      dsimp only
      split_ifs with h1 h2
      · rfl
      · rfl
      · have hm : (0:ℚ) < m := lt_of_le_of_lt (not_lt.mp h1) (not_le.mp h2)
        unfold checkedDiv
        rw [if_neg (ne_of_gt hm)]
        rfl

/-- C10: no component scorer divides by zero.  The mirrors of the three
dividing scorers in which every `/` is replaced by a zero-refusing
`checkedDiv` always succeed and agree with the originals: each
skill-sub-ratio and the requirements ratio divide by the cardinality of
a set checked non-empty on that branch, the final skill normalization is
guarded by `total_weight = 0`, and the experience ratio is reached only
when `0 ≤ cv < jd_min`, forcing `jd_min > 0`
(`calculate_education_match` contains no division at all). -/
theorem no_division_by_zero (jd : JdData) (cv : CvData) (s : Option String) (c : Option ℚ) :
    calculate_skill_match_checked jd cv = some (calculate_skill_match jd cv) ∧
    check_essential_requirements_checked jd cv = some (check_essential_requirements jd cv) ∧
    calculate_experience_match_checked s c = some (calculate_experience_match s c) :=
  ⟨skill_checked_eq jd cv, requirements_checked_eq jd cv, experience_checked_eq s c⟩

/-! ### Shortlisting pass lemmas -/

theorem foldl_shortlistStep_eq (t : ℚ) (todo : List MatchRow) (acc : List Shortlisted)
    (d : List MatchRow) :
    todo.foldl (shortlistStep t) (acc, d) = (acc ++ selectList t todo, applyUpdates t todo d) := by
  induction todo generalizing acc d with
  | nil => simp [selectList, applyUpdates]
  | cons r rest ih =>
    by_cases h : r.match_score ≥ t <;>
      simp [List.foldl_cons, shortlistStep, ih, selectList, applyUpdates, List.filter_cons, h,
            mkEntry]

theorem applyUpdates_eq_map (t : ℚ) (todo : List MatchRow) (d : List MatchRow) :
    applyUpdates t todo d = d.map (stepAll t todo) := by
  induction todo generalizing d with
  | nil =>
    simp only [applyUpdates, List.foldl_nil]
    rw [show (stepAll t [] : MatchRow → MatchRow) = id from rfl, List.map_id]
  | cons r rest ih =>
    simp only [applyUpdates, List.foldl_cons] at ih ⊢
    rw [show updateStatus d r.match_id (decide (r.match_score ≥ t)) =
          d.map (fun r0 => if r0.match_id = r.match_id
            then { r0 with shortlist_status := decide (r.match_score ≥ t) } else r0) from rfl,
        ih, List.map_map]
    rfl

theorem stepAll_eq (t : ℚ) (todo : List MatchRow) (r0 : MatchRow)
    (hsc : ∀ x ∈ todo, r0.match_id = x.match_id → x.match_score = r0.match_score) :
    stepAll t todo r0 =
      if ∃ x ∈ todo, r0.match_id = x.match_id then setFlag t r0 else r0 := by
  induction todo generalizing r0 with
  | nil => simp [stepAll]
  | cons x rest ih =>
    simp only [stepAll, List.foldl_cons] at ih ⊢
    by_cases hx : r0.match_id = x.match_id
    · rw [if_pos hx]
      have hscore : x.match_score = r0.match_score := hsc x (List.mem_cons_self _ _) hx
      have hr1 : ({ r0 with shortlist_status := decide (x.match_score ≥ t) }) = setFlag t r0 := by
        rw [hscore]
        rfl
      rw [hr1]
      have ihr := ih (setFlag t r0) (fun y hy hid => by
        have : r0.match_id = y.match_id := hid
        exact hsc y (List.mem_cons_of_mem _ hy) this)
      rw [ihr]
      rw [if_pos (show ∃ y ∈ x :: rest, r0.match_id = y.match_id from
        ⟨x, List.mem_cons_self _ _, hx⟩)]
      split_ifs <;> rfl
    · rw [if_neg hx]
      rw [ih r0 (fun y hy hid => hsc y (List.mem_cons_of_mem _ hy) hid)]
      by_cases hrest : ∃ y ∈ rest, r0.match_id = y.match_id
      · have hall : ∃ y ∈ x :: rest, r0.match_id = y.match_id := by
          obtain ⟨y, hy, hid⟩ := hrest
          exact ⟨y, List.mem_cons_of_mem _ hy, hid⟩
        rw [if_pos hrest, if_pos hall]
      · have hnall : ¬ ∃ y ∈ x :: rest, r0.match_id = y.match_id := by
          rintro ⟨y, hy, hid⟩
          rcases List.mem_cons.mp hy with rfl | hy'
          · exact hx hid
          · exact hrest ⟨y, hy', hid⟩
        rw [if_neg hrest, if_neg hnall]

theorem mem_insertByScore {a r : MatchRow} {l : List MatchRow} :
    a ∈ insertByScore r l ↔ a = r ∨ a ∈ l := by
  induction l with
  | nil => simp [insertByScore]
  | cons x xs ih =>
    simp only [insertByScore]
    split_ifs with h
    · simp [List.mem_cons]
    · simp only [List.mem_cons, ih]
      tauto

theorem mem_sortByScoreDesc {a : MatchRow} {db : List MatchRow} :
    a ∈ sortByScoreDesc db ↔ a ∈ db := by
  induction db with
  | nil => simp [sortByScoreDesc]
  | cons x xs ih =>
    simp only [sortByScoreDesc, List.foldr_cons] at ih ⊢
    rw [mem_insertByScore]
    simp only [List.mem_cons, ih]

theorem insertByScore_ne_nil (r : MatchRow) (l : List MatchRow) : insertByScore r l ≠ [] := by
  cases l with
  | nil => simp [insertByScore]
  | cons x xs =>
    simp only [insertByScore]
    split_ifs <;> simp

theorem sortByScoreDesc_eq_nil {db : List MatchRow} :
    sortByScoreDesc db = [] ↔ db = [] := by
  cases db with
  | nil => simp [sortByScoreDesc]
  | cons x xs =>
    simp only [sortByScoreDesc, List.foldr_cons]
    simp [insertByScore_ne_nil]

theorem pairwise_key_eq {db : List MatchRow}
    (h : db.Pairwise (fun a b => a.match_id ≠ b.match_id)) {x y : MatchRow}
    (hx : x ∈ db) (hy : y ∈ db) (hxy : x.match_id = y.match_id) : x = y := by
  induction db with
  | nil => cases hx
  | cons z zs ih =>
    rcases List.pairwise_cons.mp h with ⟨hz, hzs⟩
    rcases List.mem_cons.mp hx with rfl | hx'
    · rcases List.mem_cons.mp hy with rfl | hy'
      · rfl
      · exact absurd hxy (hz y hy')
    · rcases List.mem_cons.mp hy with rfl | hy'
      · exact absurd hxy.symm (hz x hx')
      · exact ih hzs hx' hy'

theorem shortlist_db_eq (t : ℚ) (db : List MatchRow)
    (hids : db.Pairwise (fun a b => a.match_id ≠ b.match_id)) :
    (shortlist_candidates_for_jd t db).2 = db.map (setFlag t) := by
  unfold shortlist_candidates_for_jd
  dsimp only
  by_cases hnil : sortByScoreDesc db = []
  · rw [if_pos hnil]
    have hdb : db = [] := sortByScoreDesc_eq_nil.mp hnil
    subst hdb
    rfl
  · rw [if_neg hnil, foldl_shortlistStep_eq]
    dsimp only
    rw [applyUpdates_eq_map]
    apply List.map_congr_left
    intro r0 hr0
    rw [stepAll_eq t _ r0 ?_]
    · rw [if_pos ⟨r0, mem_sortByScoreDesc.mpr hr0, rfl⟩]
    · intro x hx hid
      have hxdb : x ∈ db := mem_sortByScoreDesc.mp hx
      rw [pairwise_key_eq hids hxdb hr0 hid.symm]

theorem shortlist_res_eq (t : ℚ) (db : List MatchRow) :
    (shortlist_candidates_for_jd t db).1 = selectList t (sortByScoreDesc db) := by
  unfold shortlist_candidates_for_jd
  dsimp only
  by_cases hnil : sortByScoreDesc db = []
  · rw [if_pos hnil, hnil]
    rfl
  · rw [if_neg hnil, foldl_shortlistStep_eq]
    simp


theorem shortlist_mem_iff (t : ℚ) (db : List MatchRow) (c : Nat) :
    (∃ e ∈ (shortlist_candidates_for_jd t db).1, e.candidate_id = c) ↔
      ∃ r ∈ db, r.candidate_id = c ∧ r.match_score ≥ t := by
  rw [shortlist_res_eq]
  simp only [selectList, List.mem_map, List.mem_filter, mem_sortByScoreDesc,
    decide_eq_true_eq, mkEntry]
  constructor
  · rintro ⟨e, ⟨r, ⟨hr, hs⟩, rfl⟩, hc⟩
    exact ⟨r, hr, hc, hs⟩
  · rintro ⟨r, hr, hc, hs⟩
    exact ⟨⟨r.candidate_id, r.cv_filename, pyRound3 r.match_score⟩, ⟨r, ⟨hr, hs⟩, rfl⟩, hc⟩

theorem setFlag_setFlag (t t' : ℚ) (r : MatchRow) : setFlag t' (setFlag t r) = setFlag t' r := rfl

theorem insertByScore_map_setFlag (t : ℚ) (r : MatchRow) (l : List MatchRow) :
    insertByScore (setFlag t r) (l.map (setFlag t)) = (insertByScore r l).map (setFlag t) := by
  induction l with
  | nil => rfl
  | cons x xs ih =>
    simp only [List.map_cons, insertByScore]
    by_cases h : r.match_score ≥ x.match_score
    · rw [if_pos (show (setFlag t r).match_score ≥ (setFlag t x).match_score from h), if_pos h]
      rfl
    · rw [if_neg (show ¬ (setFlag t r).match_score ≥ (setFlag t x).match_score from h),
          if_neg h, ih]
      rfl

theorem sortByScoreDesc_map_setFlag (t : ℚ) (db : List MatchRow) :
    sortByScoreDesc (db.map (setFlag t)) = (sortByScoreDesc db).map (setFlag t) := by
  induction db with
  | nil => rfl
  | cons x xs ih =>
    simp only [List.map_cons, sortByScoreDesc, List.foldr_cons] at ih ⊢
    rw [ih, insertByScore_map_setFlag]

theorem selectList_map_setFlag (t t' : ℚ) (l : List MatchRow) :
    selectList t' (l.map (setFlag t)) = selectList t' l := by
  induction l with
  | nil => rfl
  | cons x xs ih =>
    simp only [selectList, List.map_cons, List.filter_cons] at ih ⊢
    by_cases h : x.match_score ≥ t'
    · rw [if_pos (show decide ((setFlag t x).match_score ≥ t') = true from decide_eq_true h),
          if_pos (decide_eq_true h)]
      simp only [List.map_cons, ih]
      rfl
    · rw [if_neg (show ¬ decide ((setFlag t x).match_score ≥ t') = true by
            simpa using h),
          if_neg (by simpa using h)]
      exact ih

theorem pairwise_map_setFlag {t : ℚ} {db : List MatchRow}
    (h : db.Pairwise (fun a b => a.match_id ≠ b.match_id)) :
    (db.map (setFlag t)).Pairwise (fun a b => a.match_id ≠ b.match_id) := by
  rw [List.pairwise_map]
  exact h.imp (fun hab => hab)

/-- C9: after `shortlist_candidates_for_jd` runs, every stored row's
flag equals `score >= threshold` (a full overwrite of the previous
flags); running it again with the same threshold returns the identical
pair; re-running with any other threshold `t'` rewrites every flag per
`t'` (so lowering flips false flags to true and raising flips true to
false); and the returned list contains exactly the candidates whose
score meets the threshold.  The hypothesis states that `match_id` values
are distinct, which the `matches` table's primary key guarantees. -/
theorem shortlist_overwrite_spec (t t' : ℚ) (db : List MatchRow)
    (hids : db.Pairwise (fun a b => a.match_id ≠ b.match_id)) :
    (shortlist_candidates_for_jd t db).2 =
      db.map (fun r => { r with shortlist_status := decide (r.match_score ≥ t) }) ∧
    shortlist_candidates_for_jd t (shortlist_candidates_for_jd t db).2 =
      shortlist_candidates_for_jd t db ∧
    (shortlist_candidates_for_jd t' (shortlist_candidates_for_jd t db).2).2 =
      db.map (fun r => { r with shortlist_status := decide (r.match_score ≥ t') }) ∧
    ∀ c, (∃ e ∈ (shortlist_candidates_for_jd t db).1, e.candidate_id = c) ↔
      ∃ r ∈ db, r.candidate_id = c ∧ r.match_score ≥ t := by
  have hdb2 : (shortlist_candidates_for_jd t db).2 = db.map (setFlag t) :=
    shortlist_db_eq t db hids
  have hids' : (db.map (setFlag t)).Pairwise (fun a b => a.match_id ≠ b.match_id) :=
    pairwise_map_setFlag hids
  refine ⟨hdb2, ?_, ?_, shortlist_mem_iff t db⟩
  · apply Prod.ext
    · rw [shortlist_res_eq, shortlist_res_eq, hdb2, sortByScoreDesc_map_setFlag,
          selectList_map_setFlag]
    · rw [hdb2, shortlist_db_eq t _ hids', List.map_map]
      rfl
  · rw [hdb2, shortlist_db_eq t' _ hids', List.map_map]
    rfl

/-- C9, witness: the overwrite pass and its idempotence at a concrete
two-row table and threshold 0.75. -/
theorem shortlist_overwrite_spec_witness :
    (shortlist_candidates_for_jd (3/4) dbW).2 =
      dbW.map (fun r => { r with shortlist_status := decide (r.match_score ≥ 3/4) }) ∧
    shortlist_candidates_for_jd (3/4) (shortlist_candidates_for_jd (3/4) dbW).2 =
      shortlist_candidates_for_jd (3/4) dbW :=
  ⟨(shortlist_overwrite_spec (3/4) (2/5) dbW (by with_unfolding_all decide)).1,
   (shortlist_overwrite_spec (3/4) (2/5) dbW (by with_unfolding_all decide)).2.1⟩

end JobScreening
